import Mathlib

/-!
Shallow embedding of the core of the OSKAR correlation engine.

Embedded source files:
* `src/interferometry/src/oskar_correlate_gaussian_omp.c`
  (`oskar_correlate_gaussian_omp_f` / `oskar_correlate_gaussian_omp_d`)
* `src/correlate/src/oskar_evaluate_average_scalar_cross_power_beam_omp.c`
  (`oskar_evaluate_average_scalar_cross_power_beam_omp_f` / `_d`)
* `src/station/src/oskar_station_override_element_xy_position_errors.c`

C `int` values are embedded as `ℤ` (loop ranges use `Int.toNat`, matching the
fact that a C `for (i = 0; i < n; ++i)` loop body never runs for `n ≤ 0`).
Floating-point values of the correlator are embedded as exact reals; for the
cross-power-beam kernel, whose degenerate behaviour depends on IEEE infinities
and NaN, an explicit value type with infinities and NaN over `ℚ` is used.
Leaf primitives whose definitions are not part of the sampled sources
(`oskar_sinc`, `oskar_accumulate_baseline_visibility_for_source`,
`OSKAR_MULTIPLY_ADD_COMPLEX_CONJUGATE`, the station accessors) are modelled
from the specification, as marked in their doc comments.
-/

/-! ## Baseline indexing

`oskar_correlate_gaussian_omp.c`, lines 128-130 (single precision) and
220-222 (double precision):
`i = station_q*(num_stations-1) - (station_q-1)*station_q/2 + station_p - station_q - 1`.
All quantities are C `int`; the dividend `(station_q-1)*station_q` is a product
of consecutive integers and hence nonnegative for every `station_q`, so C
truncating division agrees with Lean's integer division on every input that
can occur.
-/

/-- Baseline index formula of `oskar_correlate_gaussian_omp.c` lines 128-130. -/
def baselineIndex (num_stations station_q station_p : ℤ) : ℤ :=
  station_q * (num_stations - 1) - (station_q - 1) * station_q / 2 +
    station_p - station_q - 1

/-- First index of the contiguous block of baseline slots owned by a fixed
`station_q` (the value of the index formula with the `station_p`-dependent
offset removed). -/
def blockStart (num_stations station_q : ℤ) : ℤ :=
  station_q * (num_stations - 1) - (station_q - 1) * station_q / 2

lemma even_pred_mul_self (q : ℤ) : Even ((q - 1) * q) := by
  have h := Int.even_mul_succ_self (q - 1)
  have e : q - 1 + 1 = q := by ring
  rwa [e] at h

lemma two_mul_blockStart (ns q : ℤ) :
    2 * blockStart ns q = 2 * (q * (ns - 1)) - (q - 1) * q := by
  have h := Int.two_mul_ediv_two_of_even (even_pred_mul_self q)
  unfold blockStart
  linarith [h]

lemma blockStart_succ (ns q : ℤ) :
    blockStart ns (q + 1) = blockStart ns q + (ns - 1 - q) := by
  have h1 := two_mul_blockStart ns (q + 1)
  have h2 := two_mul_blockStart ns q
  have e1 : (q + 1) * (ns - 1) = q * (ns - 1) + (ns - 1) := by ring
  have e2 : (q + 1 - 1) * (q + 1) = (q - 1) * q + 2 * q := by ring
  linarith

lemma blockStart_zero (ns : ℤ) : blockStart ns 0 = 0 := by
  unfold blockStart
  norm_num

lemma blockStart_last (ns : ℤ) : blockStart ns (ns - 1) = ns * (ns - 1) / 2 := by
  have h3 : Even (ns * (ns - 1)) := by
    have h := even_pred_mul_self ns
    rwa [mul_comm] at h
  have h4 := Int.two_mul_ediv_two_of_even h3
  have h1 := two_mul_blockStart ns (ns - 1)
  have e : 2 * ((ns - 1) * (ns - 1)) - (ns - 1 - 1) * (ns - 1) = ns * (ns - 1) := by
    ring
  linarith

lemma blockStart_mono (ns : ℤ) (d : ℕ) (q : ℤ) (h : q + d ≤ ns - 1) :
    blockStart ns q ≤ blockStart ns (q + d) := by
  induction d with
  | zero => simp
  | succ k ih =>
      have hk : q + (k : ℤ) ≤ ns - 1 := by
        have : ((k : ℤ)) + 1 = ((k + 1 : ℕ) : ℤ) := by push_cast; ring
        omega
      have h2 := blockStart_succ ns (q + (k : ℤ))
      have hge : (1 : ℤ) ≤ ns - 1 - (q + (k : ℤ)) := by
        have : ((k : ℤ)) + 1 = ((k + 1 : ℕ) : ℤ) := by push_cast; ring
        omega
      have h3 : q + ((k + 1 : ℕ) : ℤ) = q + (k : ℤ) + 1 := by push_cast; ring
      calc blockStart ns q ≤ blockStart ns (q + (k : ℤ)) := ih hk
        _ ≤ blockStart ns (q + (k : ℤ) + 1) := by linarith
        _ = blockStart ns (q + ((k + 1 : ℕ) : ℤ)) := by rw [h3]

lemma baselineIndex_eq_blockStart (ns q p : ℤ) :
    baselineIndex ns q p = blockStart ns q + (p - q - 1) := by
  unfold baselineIndex blockStart
  ring

lemma blockStart_le_of_le (ns a b : ℤ) (hab : a ≤ b) (hb : b ≤ ns - 1) :
    blockStart ns a ≤ blockStart ns b := by
  have hd : a + ((b - a).toNat : ℤ) = b := by omega
  have h := blockStart_mono ns (b - a).toNat a (by omega)
  rwa [hd] at h

lemma baselineIndex_bounds (ns q p : ℤ) (hq : 0 ≤ q) (hqp : q < p) (hp : p < ns) :
    blockStart ns q ≤ baselineIndex ns q p ∧
    baselineIndex ns q p < blockStart ns (q + 1) ∧
    0 ≤ baselineIndex ns q p ∧
    baselineIndex ns q p < ns * (ns - 1) / 2 := by
  have he := baselineIndex_eq_blockStart ns q p
  have hsucc := blockStart_succ ns q
  have hlow : blockStart ns q ≤ baselineIndex ns q p := by omega
  have hupblock : baselineIndex ns q p < blockStart ns (q + 1) := by omega
  have hzero := blockStart_zero ns
  have hnn : 0 ≤ blockStart ns q := by
    have h := blockStart_le_of_le ns 0 q hq (by omega)
    omega
  have hlast := blockStart_last ns
  have htot : blockStart ns (q + 1) ≤ ns * (ns - 1) / 2 := by
    have h := blockStart_le_of_le ns (q + 1) (ns - 1) (by omega) (by omega)
    omega
  exact ⟨hlow, hupblock, by omega, by omega⟩

lemma baselineIndex_inj (ns q p q' p' : ℤ)
    (hq : 0 ≤ q) (hqp : q < p) (hp : p < ns)
    (hq' : 0 ≤ q') (hqp' : q' < p') (hp' : p' < ns)
    (heq : baselineIndex ns q p = baselineIndex ns q' p') : q = q' ∧ p = p' := by
  have hb := baselineIndex_bounds ns q p hq hqp hp
  have hb' := baselineIndex_bounds ns q' p' hq' hqp' hp'
  have hqq : q = q' := by
    by_contra hne
    rcases lt_or_gt_of_ne hne with h | h
    · have hmono := blockStart_le_of_le ns (q + 1) q' (by omega) (by omega)
      omega
    · have hmono := blockStart_le_of_le ns (q' + 1) q (by omega) (by omega)
      omega
  subst hqq
  refine ⟨rfl, ?_⟩
  have h1 := baselineIndex_eq_blockStart ns q p
  have h2 := baselineIndex_eq_blockStart ns q p'
  omega

lemma baselineIndex_surj_aux (ns : ℤ) (d : ℕ) :
    ∀ q : ℤ, 0 ≤ q → q + d = ns - 1 →
    ∀ k : ℤ, blockStart ns q ≤ k → k < blockStart ns (ns - 1) →
    ∃ qq pp : ℤ, 0 ≤ qq ∧ qq < pp ∧ pp < ns ∧ baselineIndex ns qq pp = k := by
  induction d with
  | zero =>
      intro q hq hqd k hk1 hk2
      exfalso
      have hq1 : q = ns - 1 := by omega
      rw [hq1] at hk1
      omega
  | succ dd ih =>
      intro q hq hqd k hk1 hk2
      by_cases hcase : k < blockStart ns (q + 1)
      · have hsucc := blockStart_succ ns q
        refine ⟨q, k - blockStart ns q + q + 1, hq, by omega, by omega, ?_⟩
        have he := baselineIndex_eq_blockStart ns q (k - blockStart ns q + q + 1)
        omega
      · have hnext : (q + 1) + (dd : ℤ) = ns - 1 := by
          have : ((dd + 1 : ℕ) : ℤ) = (dd : ℤ) + 1 := by push_cast; ring
          omega
        exact ih (q + 1) (by omega) hnext k (by omega) hk2

/-- C1: For every `num_stations ≥ 2`, the baseline index formula
`index = q*(num_stations-1) - (q-1)*q/2 + (p - q - 1)` is a bijection from
the ordered pairs `0 ≤ q < p < num_stations` onto
`[0, num_stations*(num_stations-1)/2)`: for fixed `q` the indices form the
contiguous block `[blockStart q, blockStart (q+1))` as `p` ranges over
`q+1 .. num_stations-1`, distinct pairs get distinct indices, and every slot
in the range is hit by some pair. -/
theorem baselineIndex_bijection (num_stations : ℤ) (h : 2 ≤ num_stations) :
    (∀ q p : ℤ, 0 ≤ q → q < p → p < num_stations →
      baselineIndex num_stations q p = blockStart num_stations q + (p - q - 1) ∧
      blockStart num_stations q ≤ baselineIndex num_stations q p ∧
      baselineIndex num_stations q p < blockStart num_stations (q + 1) ∧
      0 ≤ baselineIndex num_stations q p ∧
      baselineIndex num_stations q p < num_stations * (num_stations - 1) / 2) ∧
    (∀ q p q' p' : ℤ, 0 ≤ q → q < p → p < num_stations →
      0 ≤ q' → q' < p' → p' < num_stations →
      baselineIndex num_stations q p = baselineIndex num_stations q' p' →
      q = q' ∧ p = p') ∧
    (∀ k : ℤ, 0 ≤ k → k < num_stations * (num_stations - 1) / 2 →
      ∃ q p : ℤ, 0 ≤ q ∧ q < p ∧ p < num_stations ∧
        baselineIndex num_stations q p = k) := by
  refine ⟨?_, ?_, ?_⟩
  · intro q p hq hqp hp
    have hb := baselineIndex_bounds num_stations q p hq hqp hp
    exact ⟨baselineIndex_eq_blockStart num_stations q p, hb.1, hb.2.1, hb.2.2.1, hb.2.2.2⟩
  · intro q p q' p' hq hqp hp hq' hqp' hp' heq
    exact baselineIndex_inj num_stations q p q' p' hq hqp hp hq' hqp' hp' heq
  · intro k hk0 hk1
    have hlast := blockStart_last num_stations
    have hzero := blockStart_zero num_stations
    have hd : (0 : ℤ) + ((num_stations - 1).toNat : ℤ) = num_stations - 1 := by omega
    exact baselineIndex_surj_aux num_stations (num_stations - 1).toNat 0 le_rfl hd
      k (by omega) (by omega)

/-- Witness for C1: the hypothesis `2 ≤ num_stations` holds at `num_stations = 3`
and the bijection theorem applies there. -/
theorem baselineIndex_bijection_witness :
    (2 : ℤ) ≤ 3 ∧
    ((∀ q p : ℤ, 0 ≤ q → q < p → p < 3 →
      baselineIndex 3 q p = blockStart 3 q + (p - q - 1) ∧
      blockStart 3 q ≤ baselineIndex 3 q p ∧
      baselineIndex 3 q p < blockStart 3 (q + 1) ∧
      0 ≤ baselineIndex 3 q p ∧
      baselineIndex 3 q p < 3 * (3 - 1) / 2) ∧
    (∀ q p q' p' : ℤ, 0 ≤ q → q < p → p < 3 →
      0 ≤ q' → q' < p' → p' < 3 →
      baselineIndex 3 q p = baselineIndex 3 q' p' → q = q' ∧ p = p') ∧
    (∀ k : ℤ, 0 ≤ k → k < 3 * (3 - 1) / 2 →
      ∃ q p : ℤ, 0 ≤ q ∧ q < p ∧ p < 3 ∧ baselineIndex 3 q p = k)) :=
  ⟨by norm_num, baselineIndex_bijection 3 (by norm_num)⟩

/-! ## Complex pairs and 2x2 Jones blocks

`float2`/`double2` (fields `x`, `y`) and `float4c`/`double4c` (fields
`a`, `b`, `c`, `d`, each a complex pair), embedded over exact reals.
-/

/-- A complex scalar as stored by the code: real part `x`, imaginary part `y`. -/
@[ext] structure Cplx where
  x : ℝ
  y : ℝ

/-- A 2x2 complex (Jones / visibility) matrix as stored by the code:
entries `a b / c d`. -/
@[ext] structure C4 where
  a : Cplx
  b : Cplx
  c : Cplx
  d : Cplx

noncomputable instance : Add Cplx := ⟨fun u v => ⟨u.x + v.x, u.y + v.y⟩⟩

instance : Zero Cplx := ⟨⟨0, 0⟩⟩

noncomputable instance : Neg Cplx := ⟨fun u => ⟨-u.x, -u.y⟩⟩

@[simp] lemma Cplx.add_x (u v : Cplx) : (u + v).x = u.x + v.x := rfl

@[simp] lemma Cplx.add_y (u v : Cplx) : (u + v).y = u.y + v.y := rfl

@[simp] lemma Cplx.zero_x : (0 : Cplx).x = 0 := rfl

@[simp] lemma Cplx.zero_y : (0 : Cplx).y = 0 := rfl

@[simp] lemma Cplx.neg_x (u : Cplx) : (-u).x = -u.x := rfl

@[simp] lemma Cplx.neg_y (u : Cplx) : (-u).y = -u.y := rfl

noncomputable instance : AddCommGroup Cplx where
  add_assoc u v w := by ext <;> simp <;> ring
  zero_add u := by ext <;> simp
  add_zero u := by ext <;> simp
  add_comm u v := by ext <;> simp <;> ring
  neg_add_cancel u := by ext <;> simp
  nsmul := nsmulRec
  zsmul := zsmulRec

noncomputable instance : Add C4 := ⟨fun A B => ⟨A.a + B.a, A.b + B.b, A.c + B.c, A.d + B.d⟩⟩

instance : Zero C4 := ⟨⟨0, 0, 0, 0⟩⟩

noncomputable instance : Neg C4 := ⟨fun A => ⟨-A.a, -A.b, -A.c, -A.d⟩⟩

@[simp] lemma C4.add_a (A B : C4) : (A + B).a = A.a + B.a := rfl

@[simp] lemma C4.add_b (A B : C4) : (A + B).b = A.b + B.b := rfl

@[simp] lemma C4.add_c (A B : C4) : (A + B).c = A.c + B.c := rfl

@[simp] lemma C4.add_d (A B : C4) : (A + B).d = A.d + B.d := rfl

@[simp] lemma C4.zero_a : (0 : C4).a = 0 := rfl

@[simp] lemma C4.zero_b : (0 : C4).b = 0 := rfl

@[simp] lemma C4.zero_c : (0 : C4).c = 0 := rfl

@[simp] lemma C4.zero_d : (0 : C4).d = 0 := rfl

@[simp] lemma C4.neg_a (A : C4) : (-A).a = -A.a := rfl

@[simp] lemma C4.neg_b (A : C4) : (-A).b = -A.b := rfl

@[simp] lemma C4.neg_c (A : C4) : (-A).c = -A.c := rfl

@[simp] lemma C4.neg_d (A : C4) : (-A).d = -A.d := rfl

noncomputable instance : AddCommGroup C4 where
  add_assoc A B C := by ext <;> simp <;> ring
  zero_add A := by ext <;> simp
  add_zero A := by ext <;> simp
  add_comm A B := by ext <;> simp <;> ring
  neg_add_cancel A := by ext <;> simp
  nsmul := nsmulRec
  zsmul := zsmulRec

/-! ## Normalized sinc -/

/-- Modelled from the spec: `oskar_sinc_f` / `oskar_sinc_d` (only the header
`oskar_sinc.h` is included by the sampled sources). The spec defines
`normalized_sinc(x) = sin(pi*x)/(pi*x)` for `x ≠ 0` with
`normalized_sinc(0) = 1` exactly (no division by zero). -/
noncomputable def oskar_sinc (x : ℝ) : ℝ :=
  if x = 0 then 1 else Real.sin (Real.pi * x) / (Real.pi * x)

/-- C4: `normalized_sinc(0) = 1` exactly, and `normalized_sinc` is even:
`normalized_sinc x = normalized_sinc (-x)` for every real `x`.
`oskar_sinc` is the function the correlator applies to the bandwidth-smearing
argument in its per-source loop (see `gaussianSourceWeight` below). -/
theorem oskar_sinc_zero_and_even :
    oskar_sinc 0 = 1 ∧ ∀ x : ℝ, oskar_sinc x = oskar_sinc (-x) := by
  constructor
  · simp [oskar_sinc]
  · intro x
    by_cases hx : x = 0
    · simp [hx]
    · have hnx : -x ≠ 0 := neg_ne_zero.mpr hx
      simp only [oskar_sinc, if_neg hx, if_neg hnx]
      rw [mul_neg, Real.sin_neg]
      rw [neg_div_neg_eq]

/-! ## Per-source accumulation primitive

`oskar_correlate_gaussian_omp.c` includes
`oskar_accumulate_baseline_visibility_for_source.h`; the primitive's body is
not among the sampled sources, so it is modelled from the specification
(section 4.2, steps 4-5).
-/

/-- Complex product of two complex pairs. -/
noncomputable def cmul (u v : Cplx) : Cplx :=
  ⟨u.x * v.x - u.y * v.y, u.x * v.y + u.y * v.x⟩

/-- Complex conjugate of a complex pair. -/
noncomputable def conjC (u : Cplx) : Cplx := ⟨u.x, -u.y⟩

/-- 2x2 complex matrix product. -/
noncomputable def m2mul (A B : C4) : C4 :=
  ⟨cmul A.a B.a + cmul A.b B.c, cmul A.a B.b + cmul A.b B.d,
   cmul A.c B.a + cmul A.d B.c, cmul A.c B.b + cmul A.d B.d⟩

/-- Conjugate transpose of a 2x2 complex matrix. -/
noncomputable def hermitian (A : C4) : C4 := ⟨conjC A.a, conjC A.c, conjC A.b, conjC A.d⟩

/-- Scale a 2x2 complex matrix by a real factor. -/
noncomputable def smulC4 (w : ℝ) (A : C4) : C4 :=
  ⟨⟨w * A.a.x, w * A.a.y⟩, ⟨w * A.b.x, w * A.b.y⟩,
   ⟨w * A.c.x, w * A.c.y⟩, ⟨w * A.d.x, w * A.d.y⟩⟩

/-- Modelled from the spec: the Stokes-derived 2x2 brightness matrix built
from `(I, Q, U, V)`. -/
noncomputable def brightness (si sq su sv : ℝ) : C4 :=
  ⟨⟨si + sq, 0⟩, ⟨su, sv⟩, ⟨su, -sv⟩, ⟨si - sq, 0⟩⟩

/-- Modelled from the spec: the polarized contribution of one source to one
baseline, `J_p · B · J_q^H` scaled by the combined smearing/shape weight. -/
noncomputable def visibilityTerm (si sq su sv : ℝ) (jp jq : C4) (weight : ℝ) : C4 :=
  smulC4 weight (m2mul (m2mul jp (brightness si sq su sv)) (hermitian jq))

/-- One compensated (Kahan) addition step on a real component: running sum
`s`, guard `g`, new term `t`; returns the new sum and the new guard. -/
noncomputable def kahanAdd (s g t : ℝ) : ℝ × ℝ :=
  let y := t - g
  let tt := s + y
  (tt, tt - s - y)

/-- Componentwise Kahan addition of a 2x2 complex term into a 2x2 complex
running sum with a 2x2 complex guard. -/
noncomputable def kahanAddC4 (s g t : C4) : C4 × C4 :=
  let ax := kahanAdd s.a.x g.a.x t.a.x
  let ay := kahanAdd s.a.y g.a.y t.a.y
  let bx := kahanAdd s.b.x g.b.x t.b.x
  let by' := kahanAdd s.b.y g.b.y t.b.y
  let cx := kahanAdd s.c.x g.c.x t.c.x
  let cy := kahanAdd s.c.y g.c.y t.c.y
  let dx := kahanAdd s.d.x g.d.x t.d.x
  let dy := kahanAdd s.d.y g.d.y t.d.y
  (⟨⟨ax.1, ay.1⟩, ⟨bx.1, by'.1⟩, ⟨cx.1, cy.1⟩, ⟨dx.1, dy.1⟩⟩,
   ⟨⟨ax.2, ay.2⟩, ⟨bx.2, by'.2⟩, ⟨cx.2, cy.2⟩, ⟨dx.2, dy.2⟩⟩)

/-- Modelled from the spec:
`oskar_accumulate_baseline_visibility_for_source_f` (single precision).
Adds the contribution of source `i` into the local accumulator `sum` using a
compensated summation guard, and returns the updated `(sum, guard)`. -/
noncomputable def oskar_accumulate_baseline_visibility_for_source_f
    (sum : C4) (i : ℕ) (source_I source_Q source_U source_V : ℕ → ℝ)
    (sp sq : ℕ → C4) (smear : ℝ) (guard : C4) : C4 × C4 :=
  kahanAddC4 sum guard
    (visibilityTerm (source_I i) (source_Q i) (source_U i) (source_V i)
      (sp i) (sq i) smear)

/-- Modelled from the spec:
`oskar_accumulate_baseline_visibility_for_source_d` (double precision).
Same contribution, plain (uncompensated) addition, no guard. -/
noncomputable def oskar_accumulate_baseline_visibility_for_source_d
    (sum : C4) (i : ℕ) (source_I source_Q source_U source_V : ℕ → ℝ)
    (sp sq : ℕ → C4) (smear : ℝ) : C4 :=
  sum +
    visibilityTerm (source_I i) (source_Q i) (source_U i) (source_V i)
      (sp i) (sq i) smear

/-! ## Gaussian correlator kernels

`oskar_correlate_gaussian_omp.c`, `oskar_correlate_gaussian_omp_f`
(lines 47-143) and `oskar_correlate_gaussian_omp_d` (lines 146-235).
The OpenMP-parallel outer loop writes disjoint visibility slots (see C1),
so it is embedded as a sequential fold over `station_q`.
-/

/-- The per-baseline setup of `oskar_correlate_gaussian_omp_f/_d`
(lines 91-103 resp. 183-195): baseline lengths `uu`, `vv`; the Gaussian-term
inputs `uu2 = uu*uu`, `vv2 = vv*vv`, `uuvv = 2*uu*vv` captured from them; and
then the in-place rescale of `uu`, `vv` by `pi * frac_bandwidth` for the
bandwidth-smearing term. -/
@[ext] structure BaselineTerms where
  uu : ℝ
  vv : ℝ
  uu2 : ℝ
  vv2 : ℝ
  uuvv : ℝ

/-- Lines 92-103 / 184-195 of `oskar_correlate_gaussian_omp.c`: compute the
baseline quantities in source order (shape-term inputs first, smearing
rescale second). -/
noncomputable def baselineSetup (station_u station_v : ℕ → ℝ)
    (inv_wavelength frac_bandwidth : ℝ) (station_q station_p : ℕ) : BaselineTerms :=
  let uu := (station_u station_p - station_u station_q) * inv_wavelength
  let vv := (station_v station_p - station_v station_q) * inv_wavelength
  { uu := uu * (Real.pi * frac_bandwidth)
    vv := vv * (Real.pi * frac_bandwidth)
    uu2 := uu * uu
    vv2 := vv * vv
    uuvv := 2 * uu * vv }

/-- Lines 108-120 / 200-212 of `oskar_correlate_gaussian_omp.c`: the combined
per-source weight `r1 * r2` with `r1 = oskar_sinc(uu*l + vv*m)` (post-rescale
`uu`, `vv`) and `r2 = exp(-(a*uu2 + b*uuvv + c*vv2))` (pre-rescale inputs). -/
noncomputable def gaussianSourceWeight (t : BaselineTerms) (li mi ai bi ci : ℝ) : ℝ :=
  oskar_sinc (t.uu * li + t.vv * mi) *
    Real.exp (-(ai * t.uu2 + bi * t.uuvv + ci * t.vv2))

/-- Per-baseline source loop of `oskar_correlate_gaussian_omp_f`
(lines 69-126): local accumulator `sum` and compensation `guard`, both
starting at zero, folded over all sources. Returns `(sum, guard)`. -/
noncomputable def baselineSourceSum_f (num_sources : ℤ) (jones : ℕ → C4)
    (source_I source_Q source_U source_V source_l source_m
      source_a source_b source_c : ℕ → ℝ)
    (station_u station_v : ℕ → ℝ) (inv_wavelength frac_bandwidth : ℝ)
    (station_q station_p : ℕ) : C4 × C4 :=
  let t := baselineSetup station_u station_v inv_wavelength frac_bandwidth
    station_q station_p
  let sp := fun j => jones (station_p * num_sources.toNat + j)
  let sq := fun j => jones (station_q * num_sources.toNat + j)
  (List.range num_sources.toNat).foldl
    (fun sg i =>
      let r1 := gaussianSourceWeight t (source_l i) (source_m i) (source_a i)
        (source_b i) (source_c i)
      oskar_accumulate_baseline_visibility_for_source_f sg.1 i
        source_I source_Q source_U source_V sp sq r1 sg.2)
    (0, 0)

/-- Per-baseline source loop of `oskar_correlate_gaussian_omp_d`
(lines 167-218): local accumulator `sum` starting at zero, no guard. -/
noncomputable def baselineSourceSum_d (num_sources : ℤ) (jones : ℕ → C4)
    (source_I source_Q source_U source_V source_l source_m
      source_a source_b source_c : ℕ → ℝ)
    (station_u station_v : ℕ → ℝ) (inv_wavelength frac_bandwidth : ℝ)
    (station_q station_p : ℕ) : C4 :=
  let t := baselineSetup station_u station_v inv_wavelength frac_bandwidth
    station_q station_p
  let sp := fun j => jones (station_p * num_sources.toNat + j)
  let sq := fun j => jones (station_q * num_sources.toNat + j)
  (List.range num_sources.toNat).foldl
    (fun sum i =>
      let r1 := gaussianSourceWeight t (source_l i) (source_m i) (source_a i)
        (source_b i) (source_c i)
      oskar_accumulate_baseline_visibility_for_source_d sum i
        source_I source_Q source_U source_V sp sq r1)
    0

/-- `oskar_correlate_gaussian_omp_f` (single precision, lines 47-143): for
every baseline `(station_q, station_p)` with
`station_q < station_p < num_stations`, accumulate the per-source sum and add
it into the visibility slot `baselineIndex num_stations station_q station_p`.
The function is void in C and reports no status; here it returns the updated
visibility array. -/
noncomputable def oskar_correlate_gaussian_omp_f (num_sources num_stations : ℤ)
    (jones : ℕ → C4)
    (source_I source_Q source_U source_V source_l source_m
      source_a source_b source_c : ℕ → ℝ)
    (station_u station_v : ℕ → ℝ) (inv_wavelength frac_bandwidth : ℝ)
    (vis : ℤ → C4) : ℤ → C4 :=
  (List.range num_stations.toNat).foldl
    (fun vis station_q =>
      (List.range' (station_q + 1) (num_stations.toNat - (station_q + 1))).foldl
        (fun vis station_p =>
          let sg := baselineSourceSum_f num_sources jones
            source_I source_Q source_U source_V source_l source_m
            source_a source_b source_c station_u station_v
            inv_wavelength frac_bandwidth station_q station_p
          let i := baselineIndex num_stations station_q station_p
          Function.update vis i (vis i + sg.1))
        vis)
    vis

/-- `oskar_correlate_gaussian_omp_d` (double precision, lines 146-235):
identical loop structure, per-source accumulation without a guard. -/
noncomputable def oskar_correlate_gaussian_omp_d (num_sources num_stations : ℤ)
    (jones : ℕ → C4)
    (source_I source_Q source_U source_V source_l source_m
      source_a source_b source_c : ℕ → ℝ)
    (station_u station_v : ℕ → ℝ) (inv_wavelength frac_bandwidth : ℝ)
    (vis : ℤ → C4) : ℤ → C4 :=
  (List.range num_stations.toNat).foldl
    (fun vis station_q =>
      (List.range' (station_q + 1) (num_stations.toNat - (station_q + 1))).foldl
        (fun vis station_p =>
          let sum := baselineSourceSum_d num_sources jones
            source_I source_Q source_U source_V source_l source_m
            source_a source_b source_c station_u station_v
            inv_wavelength frac_bandwidth station_q station_p
          let i := baselineIndex num_stations station_q station_p
          Function.update vis i (vis i + sum))
        vis)
    vis

/-- C2: In the Gaussian correlator, the shape-attenuation exponent uses
`uu0^2`, `vv0^2` and `2*uu0*vv0` computed from the pre-rescale baseline
lengths `uu0 = (u_p - u_q)*inv_wavelength`, `vv0 = (v_p - v_q)*inv_wavelength`,
while the bandwidth-smearing sinc argument uses `uu0`, `vv0` multiplied by
`pi*frac_bandwidth`: the weight passed to the accumulation primitive is
`normalized_sinc((pi*fb*uu0)*l + (pi*fb*vv0)*m) *
 exp(-(a*uu0^2 + b*(2*uu0*vv0) + c*vv0^2))`. -/
theorem gaussianWeight_uses_prescale_terms (station_u station_v : ℕ → ℝ)
    (inv_wavelength frac_bandwidth : ℝ) (station_q station_p : ℕ)
    (li mi ai bi ci : ℝ) :
    gaussianSourceWeight
        (baselineSetup station_u station_v inv_wavelength frac_bandwidth
          station_q station_p) li mi ai bi ci =
      oskar_sinc
          ((Real.pi * frac_bandwidth *
              ((station_u station_p - station_u station_q) * inv_wavelength)) * li +
            (Real.pi * frac_bandwidth *
              ((station_v station_p - station_v station_q) * inv_wavelength)) * mi) *
        Real.exp
          (-(ai * ((station_u station_p - station_u station_q) * inv_wavelength) ^ 2 +
             bi * (2 * ((station_u station_p - station_u station_q) * inv_wavelength) *
                ((station_v station_p - station_v station_q) * inv_wavelength)) +
             ci * ((station_v station_p - station_v station_q) * inv_wavelength) ^ 2)) := by
  unfold gaussianSourceWeight baselineSetup
  have h1 : ((station_u station_p - station_u station_q) * inv_wavelength) *
        (Real.pi * frac_bandwidth) * li +
      ((station_v station_p - station_v station_q) * inv_wavelength) *
        (Real.pi * frac_bandwidth) * mi =
      (Real.pi * frac_bandwidth *
          ((station_u station_p - station_u station_q) * inv_wavelength)) * li +
        (Real.pi * frac_bandwidth *
          ((station_v station_p - station_v station_q) * inv_wavelength)) * mi := by
    ring
  have h2 : -(ai * (((station_u station_p - station_u station_q) * inv_wavelength) *
          ((station_u station_p - station_u station_q) * inv_wavelength)) +
        bi * (2 * ((station_u station_p - station_u station_q) * inv_wavelength) *
          ((station_v station_p - station_v station_q) * inv_wavelength)) +
        ci * (((station_v station_p - station_v station_q) * inv_wavelength) *
          ((station_v station_p - station_v station_q) * inv_wavelength))) =
      -(ai * ((station_u station_p - station_u station_q) * inv_wavelength) ^ 2 +
        bi * (2 * ((station_u station_p - station_u station_q) * inv_wavelength) *
          ((station_v station_p - station_v station_q) * inv_wavelength)) +
        ci * ((station_v station_p - station_v station_q) * inv_wavelength) ^ 2) := by
    ring
  simp only []
  rw [h1, h2]

/-! ## Exactness of the compensated summation over exact reals -/

lemma kahanAdd_guard_zero (s t : ℝ) : kahanAdd s 0 t = (s + t, 0) := by
  unfold kahanAdd
  refine Prod.ext ?_ ?_ <;> simp

lemma kahanAddC4_guard_zero (s t : C4) : kahanAddC4 s 0 t = (s + t, 0) := by
  unfold kahanAddC4
  simp only [kahanAdd_guard_zero, C4.zero_a, C4.zero_b, C4.zero_c, C4.zero_d,
    Cplx.zero_x, Cplx.zero_y]
  refine Prod.ext ?_ ?_
  · ext <;> simp [kahanAdd]
  · ext <;> simp [kahanAdd]

lemma accumulate_f_guard_zero (sum : C4) (i : ℕ)
    (source_I source_Q source_U source_V : ℕ → ℝ) (sp sq : ℕ → C4) (smear : ℝ) :
    oskar_accumulate_baseline_visibility_for_source_f sum i
        source_I source_Q source_U source_V sp sq smear 0 =
      (oskar_accumulate_baseline_visibility_for_source_d sum i
        source_I source_Q source_U source_V sp sq smear, 0) := by
  unfold oskar_accumulate_baseline_visibility_for_source_f
    oskar_accumulate_baseline_visibility_for_source_d
  exact kahanAddC4_guard_zero _ _

lemma baselineSourceSum_f_eq_d (num_sources : ℤ) (jones : ℕ → C4)
    (source_I source_Q source_U source_V source_l source_m
      source_a source_b source_c : ℕ → ℝ)
    (station_u station_v : ℕ → ℝ) (inv_wavelength frac_bandwidth : ℝ)
    (station_q station_p : ℕ) :
    baselineSourceSum_f num_sources jones source_I source_Q source_U source_V
        source_l source_m source_a source_b source_c station_u station_v
        inv_wavelength frac_bandwidth station_q station_p =
      (baselineSourceSum_d num_sources jones source_I source_Q source_U source_V
        source_l source_m source_a source_b source_c station_u station_v
        inv_wavelength frac_bandwidth station_q station_p, 0) := by
  unfold baselineSourceSum_f baselineSourceSum_d
  generalize (List.range num_sources.toNat) = l
  suffices h : ∀ (l : List ℕ) (s : C4),
      l.foldl
          (fun sg i =>
            let r1 := gaussianSourceWeight
              (baselineSetup station_u station_v inv_wavelength frac_bandwidth
                station_q station_p)
              (source_l i) (source_m i) (source_a i) (source_b i) (source_c i)
            oskar_accumulate_baseline_visibility_for_source_f sg.1 i
              source_I source_Q source_U source_V
              (fun j => jones (station_p * num_sources.toNat + j))
              (fun j => jones (station_q * num_sources.toNat + j)) r1 sg.2)
          (s, 0) =
        (l.foldl
          (fun sum i =>
            let r1 := gaussianSourceWeight
              (baselineSetup station_u station_v inv_wavelength frac_bandwidth
                station_q station_p)
              (source_l i) (source_m i) (source_a i) (source_b i) (source_c i)
            oskar_accumulate_baseline_visibility_for_source_d sum i
              source_I source_Q source_U source_V
              (fun j => jones (station_p * num_sources.toNat + j))
              (fun j => jones (station_q * num_sources.toNat + j)) r1)
          s, 0) by
    exact h l 0
  intro l
  induction l with
  | nil => intro s; rfl
  | cons hd tl ih =>
      intro s
      simp only [List.foldl_cons, accumulate_f_guard_zero]
      exact ih _

lemma foldl_id {α β : Type} (l : List α) (b : β) : l.foldl (fun x _ => x) b = b := by
  induction l generalizing b with
  | nil => rfl
  | cons hd tl ih => exact ih b

/-- C7: The single- and double-precision Gaussian correlators are
algorithmically identical. Embedded over exact real arithmetic the
compensated-summation guard of the single-precision path (the extra
accumulator passed to `oskar_accumulate_baseline_visibility_for_source_f`,
which the double-precision path omits) finishes at exactly zero on every
baseline, and the two functions produce the same visibility output on all
inputs. -/
theorem correlate_gaussian_f_d_equiv (num_sources num_stations : ℤ)
    (jones : ℕ → C4)
    (source_I source_Q source_U source_V source_l source_m
      source_a source_b source_c : ℕ → ℝ)
    (station_u station_v : ℕ → ℝ) (inv_wavelength frac_bandwidth : ℝ)
    (vis : ℤ → C4) :
    (∀ station_q station_p : ℕ,
      (baselineSourceSum_f num_sources jones source_I source_Q source_U source_V
        source_l source_m source_a source_b source_c station_u station_v
        inv_wavelength frac_bandwidth station_q station_p).2 = 0) ∧
    oskar_correlate_gaussian_omp_f num_sources num_stations jones
        source_I source_Q source_U source_V source_l source_m
        source_a source_b source_c station_u station_v
        inv_wavelength frac_bandwidth vis =
      oskar_correlate_gaussian_omp_d num_sources num_stations jones
        source_I source_Q source_U source_V source_l source_m
        source_a source_b source_c station_u station_v
        inv_wavelength frac_bandwidth vis := by
  constructor
  · intro station_q station_p
    rw [baselineSourceSum_f_eq_d]
  · unfold oskar_correlate_gaussian_omp_f oskar_correlate_gaussian_omp_d
    simp only [baselineSourceSum_f_eq_d]

/-- C3: For the Gaussian correlator: with `num_sources = 0` every per-baseline
local accumulator (and its guard) stays zero and the visibility output equals
the input unchanged (only zero is added to each written slot); with
`num_stations < 2` the loop bounds degenerate, the function makes no write to
the visibility output at all, returning it unchanged. The C function is
`void`: it has no status output, so it cannot and does not report an error in
either case. -/
theorem correlate_gaussian_degenerate (num_sources num_stations : ℤ)
    (jones : ℕ → C4)
    (source_I source_Q source_U source_V source_l source_m
      source_a source_b source_c : ℕ → ℝ)
    (station_u station_v : ℕ → ℝ) (inv_wavelength frac_bandwidth : ℝ)
    (vis : ℤ → C4) :
    (num_sources = 0 →
      (∀ station_q station_p : ℕ,
        baselineSourceSum_f num_sources jones source_I source_Q source_U source_V
          source_l source_m source_a source_b source_c station_u station_v
          inv_wavelength frac_bandwidth station_q station_p = (0, 0)) ∧
      oskar_correlate_gaussian_omp_f num_sources num_stations jones
          source_I source_Q source_U source_V source_l source_m
          source_a source_b source_c station_u station_v
          inv_wavelength frac_bandwidth vis = vis) ∧
    (num_stations < 2 →
      oskar_correlate_gaussian_omp_f num_sources num_stations jones
          source_I source_Q source_U source_V source_l source_m
          source_a source_b source_c station_u station_v
          inv_wavelength frac_bandwidth vis = vis) := by
  constructor
  · intro h0
    subst h0
    have hsum : ∀ station_q station_p : ℕ,
        baselineSourceSum_f 0 jones source_I source_Q source_U source_V
          source_l source_m source_a source_b source_c station_u station_v
          inv_wavelength frac_bandwidth station_q station_p = (0, 0) :=
      fun _ _ => rfl
    refine ⟨hsum, ?_⟩
    unfold oskar_correlate_gaussian_omp_f
    simp only [hsum, add_zero, Function.update_eq_self, foldl_id]
  · intro h2
    have hcase : num_stations.toNat = 0 ∨ num_stations.toNat = 1 := by omega
    unfold oskar_correlate_gaussian_omp_f
    rcases hcase with hc | hc <;> rw [hc] <;> rfl

/-- Witness for C3: at `num_sources = 0` (with 5 stations) and at
`num_stations = 1` (with 3 sources) the correlator returns its visibility
input unchanged. -/
theorem correlate_gaussian_degenerate_witness :
    oskar_correlate_gaussian_omp_f 0 5 (fun _ => 0)
        (fun _ => 0) (fun _ => 0) (fun _ => 0) (fun _ => 0) (fun _ => 0)
        (fun _ => 0) (fun _ => 0) (fun _ => 0) (fun _ => 0)
        (fun _ => 0) (fun _ => 0) 0 0 (fun _ => 0) = (fun _ => 0) ∧
    oskar_correlate_gaussian_omp_f 3 1 (fun _ => 0)
        (fun _ => 0) (fun _ => 0) (fun _ => 0) (fun _ => 0) (fun _ => 0)
        (fun _ => 0) (fun _ => 0) (fun _ => 0) (fun _ => 0)
        (fun _ => 0) (fun _ => 0) 0 0 (fun _ => 0) = (fun _ => 0) :=
  ⟨((correlate_gaussian_degenerate 0 5 (fun _ => 0)
      (fun _ => 0) (fun _ => 0) (fun _ => 0) (fun _ => 0) (fun _ => 0)
      (fun _ => 0) (fun _ => 0) (fun _ => 0) (fun _ => 0)
      (fun _ => 0) (fun _ => 0) 0 0 (fun _ => 0)).1 rfl).2,
   (correlate_gaussian_degenerate 3 1 (fun _ => 0)
      (fun _ => 0) (fun _ => 0) (fun _ => 0) (fun _ => 0) (fun _ => 0)
      (fun _ => 0) (fun _ => 0) (fun _ => 0) (fun _ => 0)
      (fun _ => 0) (fun _ => 0) 0 0 (fun _ => 0)).2 (by norm_num)⟩

/-! ## Doubling the source list (C5) -/

/-- Concatenation of a per-source array of length `n` with an identical copy:
entry `j` of the doubled array is entry `j` (for `j < n`) or entry `j - n`
of the original. -/
def dup {α : Type} (n : ℕ) (f : ℕ → α) : ℕ → α :=
  fun j => if j < n then f j else f (j - n)

/-- The flat `[station][source]` Jones array after every station's source row
of length `n` is replaced by its concatenation with an identical copy
(row length `2*n`). -/
def dupJones {α : Type} (n : ℕ) (jones : ℕ → α) : ℕ → α :=
  fun k =>
    jones (k / (2 * n) * n +
      (if k % (2 * n) < n then k % (2 * n) else k % (2 * n) - n))

lemma foldl_acc_add (t : ℕ → C4) (l : List ℕ) :
    ∀ init : C4, l.foldl (fun s i => s + t i) init = init + (l.map t).sum := by
  induction l with
  | nil => intro init; simp
  | cons hd tl ih =>
      intro init
      simp only [List.foldl_cons, List.map_cons, List.sum_cons]
      rw [ih]
      abel

lemma baselineSourceSum_d_eq_sum (num_sources : ℤ) (jones : ℕ → C4)
    (source_I source_Q source_U source_V source_l source_m
      source_a source_b source_c : ℕ → ℝ)
    (station_u station_v : ℕ → ℝ) (inv_wavelength frac_bandwidth : ℝ)
    (station_q station_p : ℕ) :
    baselineSourceSum_d num_sources jones source_I source_Q source_U source_V
        source_l source_m source_a source_b source_c station_u station_v
        inv_wavelength frac_bandwidth station_q station_p =
      ((List.range num_sources.toNat).map (fun i =>
        visibilityTerm (source_I i) (source_Q i) (source_U i) (source_V i)
          (jones (station_p * num_sources.toNat + i))
          (jones (station_q * num_sources.toNat + i))
          (gaussianSourceWeight
            (baselineSetup station_u station_v inv_wavelength frac_bandwidth
              station_q station_p)
            (source_l i) (source_m i) (source_a i) (source_b i)
            (source_c i)))).sum := by
  unfold baselineSourceSum_d
  rw [show (List.range num_sources.toNat).foldl
      (fun sum i =>
        let r1 := gaussianSourceWeight
          (baselineSetup station_u station_v inv_wavelength frac_bandwidth
            station_q station_p)
          (source_l i) (source_m i) (source_a i) (source_b i) (source_c i)
        oskar_accumulate_baseline_visibility_for_source_d sum i
          source_I source_Q source_U source_V
          (fun j => jones (station_p * num_sources.toNat + j))
          (fun j => jones (station_q * num_sources.toNat + j)) r1)
      0 =
    (List.range num_sources.toNat).foldl
      (fun s i => s +
        visibilityTerm (source_I i) (source_Q i) (source_U i) (source_V i)
          (jones (station_p * num_sources.toNat + i))
          (jones (station_q * num_sources.toNat + i))
          (gaussianSourceWeight
            (baselineSetup station_u station_v inv_wavelength frac_bandwidth
              station_q station_p)
            (source_l i) (source_m i) (source_a i) (source_b i) (source_c i)))
      0 from rfl]
  rw [foldl_acc_add]
  rw [zero_add]

lemma baselineSourceSum_d_dup (n : ℕ) (jones : ℕ → C4)
    (source_I source_Q source_U source_V source_l source_m
      source_a source_b source_c : ℕ → ℝ)
    (station_u station_v : ℕ → ℝ) (inv_wavelength frac_bandwidth : ℝ)
    (station_q station_p : ℕ) :
    baselineSourceSum_d (2 * (n : ℤ)) (dupJones n jones)
        (dup n source_I) (dup n source_Q) (dup n source_U) (dup n source_V)
        (dup n source_l) (dup n source_m) (dup n source_a) (dup n source_b)
        (dup n source_c) station_u station_v
        inv_wavelength frac_bandwidth station_q station_p =
      baselineSourceSum_d (n : ℤ) jones source_I source_Q source_U source_V
          source_l source_m source_a source_b source_c station_u station_v
          inv_wavelength frac_bandwidth station_q station_p +
        baselineSourceSum_d (n : ℤ) jones source_I source_Q source_U source_V
          source_l source_m source_a source_b source_c station_u station_v
          inv_wavelength frac_bandwidth station_q station_p := by
  rcases Nat.eq_zero_or_pos n with hn | hn
  · subst hn
    simp [baselineSourceSum_d_eq_sum]
  · have h2n : (2 * (n : ℤ)).toNat = 2 * n := by omega
    have hnn : ((n : ℤ)).toNat = n := by omega
    rw [baselineSourceSum_d_eq_sum, baselineSourceSum_d_eq_sum, h2n, hnn]
    have hpos : 0 < 2 * n := by omega
    have hslice : ∀ s j, j < 2 * n →
        dupJones n jones (s * (2 * n) + j) =
          jones (s * n + (if j < n then j else j - n)) := by
      intro s j hj
      unfold dupJones
      have hdiv : (s * (2 * n) + j) / (2 * n) = s := by
        rw [mul_comm s (2 * n), Nat.mul_add_div hpos, Nat.div_eq_of_lt hj,
          add_zero]
      have hmod : (s * (2 * n) + j) % (2 * n) = j := by
        rw [mul_comm s (2 * n), Nat.mul_add_mod, Nat.mod_eq_of_lt hj]
      rw [hdiv, hmod]
    have hrange : List.range (2 * n) =
        List.range n ++ (List.range n).map (n + ·) := by
      rw [two_mul, List.range_add]
    rw [hrange, List.map_append, List.sum_append, List.map_map]
    have hfirst : (List.range n).map (fun i =>
        visibilityTerm (dup n source_I i) (dup n source_Q i)
          (dup n source_U i) (dup n source_V i)
          (dupJones n jones (station_p * (2 * n) + i))
          (dupJones n jones (station_q * (2 * n) + i))
          (gaussianSourceWeight
            (baselineSetup station_u station_v inv_wavelength frac_bandwidth
              station_q station_p)
            (dup n source_l i) (dup n source_m i) (dup n source_a i)
            (dup n source_b i) (dup n source_c i))) =
      (List.range n).map (fun i =>
        visibilityTerm (source_I i) (source_Q i) (source_U i) (source_V i)
          (jones (station_p * n + i)) (jones (station_q * n + i))
          (gaussianSourceWeight
            (baselineSetup station_u station_v inv_wavelength frac_bandwidth
              station_q station_p)
            (source_l i) (source_m i) (source_a i) (source_b i)
            (source_c i))) := by
      apply List.map_congr_left
      intro i hi
      have hilt : i < n := List.mem_range.mp hi
      have hi2 : i < 2 * n := by omega
      rw [hslice station_p i hi2, hslice station_q i hi2]
      simp only [dup, if_pos hilt]
    have hsecond : (List.range n).map ((fun i =>
        visibilityTerm (dup n source_I i) (dup n source_Q i)
          (dup n source_U i) (dup n source_V i)
          (dupJones n jones (station_p * (2 * n) + i))
          (dupJones n jones (station_q * (2 * n) + i))
          (gaussianSourceWeight
            (baselineSetup station_u station_v inv_wavelength frac_bandwidth
              station_q station_p)
            (dup n source_l i) (dup n source_m i) (dup n source_a i)
            (dup n source_b i) (dup n source_c i))) ∘ (n + ·)) =
      (List.range n).map (fun i =>
        visibilityTerm (source_I i) (source_Q i) (source_U i) (source_V i)
          (jones (station_p * n + i)) (jones (station_q * n + i))
          (gaussianSourceWeight
            (baselineSetup station_u station_v inv_wavelength frac_bandwidth
              station_q station_p)
            (source_l i) (source_m i) (source_a i) (source_b i)
            (source_c i))) := by
      apply List.map_congr_left
      intro i hi
      have hilt : i < n := List.mem_range.mp hi
      have hi2 : n + i < 2 * n := by omega
      have hnlt : ¬ (n + i < n) := by omega
      simp only [Function.comp_apply]
      rw [hslice station_p (n + i) hi2, hslice station_q (n + i) hi2]
      simp only [dup, if_neg hnlt, if_pos hilt]
      have hsub : n + i - n = i := by omega
      rw [hsub]
    rw [hfirst, hsecond]

lemma foldl_split {α : Type} (stepA step1 step2 : (ℤ → C4) → α → (ℤ → C4))
    (h : ∀ (v1 v2 : ℤ → C4) (x : α),
      stepA (fun k => v1 k + v2 k) x = fun k => step1 v1 x k + step2 v2 x k)
    (l : List α) :
    ∀ v1 v2 : ℤ → C4,
      l.foldl stepA (fun k => v1 k + v2 k) =
        fun k => l.foldl step1 v1 k + l.foldl step2 v2 k := by
  induction l with
  | nil => intro v1 v2; rfl
  | cons hd tl ih =>
      intro v1 v2
      simp only [List.foldl_cons]
      rw [h v1 v2 hd]
      exact ih (step1 v1 hd) (step2 v2 hd)

lemma foldl_translate {α : Type} (step : (ℤ → C4) → α → (ℤ → C4))
    (h : ∀ (v1 v2 : ℤ → C4) (x : α),
      step (fun k => v1 k + v2 k) x = fun k => v1 k + step v2 x k)
    (l : List α) :
    ∀ v1 v2 : ℤ → C4,
      l.foldl step (fun k => v1 k + v2 k) = fun k => v1 k + l.foldl step v2 k := by
  induction l with
  | nil => intro v1 v2; rfl
  | cons hd tl ih =>
      intro v1 v2
      simp only [List.foldl_cons]
      rw [h v1 v2 hd]
      exact ih v1 (step v2 hd)

lemma correlate_d_vis_additive (num_sources num_stations : ℤ) (jones : ℕ → C4)
    (source_I source_Q source_U source_V source_l source_m
      source_a source_b source_c : ℕ → ℝ)
    (station_u station_v : ℕ → ℝ) (inv_wavelength frac_bandwidth : ℝ)
    (vis : ℤ → C4) :
    oskar_correlate_gaussian_omp_d num_sources num_stations jones
        source_I source_Q source_U source_V source_l source_m
        source_a source_b source_c station_u station_v
        inv_wavelength frac_bandwidth vis =
      fun k => vis k +
        oskar_correlate_gaussian_omp_d num_sources num_stations jones
          source_I source_Q source_U source_V source_l source_m
          source_a source_b source_c station_u station_v
          inv_wavelength frac_bandwidth (fun _ => 0) k := by
  have hv : vis = fun k => vis k + (fun _ : ℤ => (0 : C4)) k := by
    funext k
    rw [add_zero]
  unfold oskar_correlate_gaussian_omp_d
  conv_lhs => rw [hv]
  apply foldl_translate
  intro v1 v2 q
  apply foldl_translate
  intro w1 w2 p
  funext k
  simp only [Function.update_apply]
  split_ifs with hk
  · subst hk
    abel
  · rfl

lemma correlate_d_dup_eq (n : ℕ) (num_stations : ℤ) (jones : ℕ → C4)
    (source_I source_Q source_U source_V source_l source_m
      source_a source_b source_c : ℕ → ℝ)
    (station_u station_v : ℕ → ℝ) (inv_wavelength frac_bandwidth : ℝ)
    (vis : ℤ → C4) :
    oskar_correlate_gaussian_omp_d (2 * (n : ℤ)) num_stations (dupJones n jones)
        (dup n source_I) (dup n source_Q) (dup n source_U) (dup n source_V)
        (dup n source_l) (dup n source_m) (dup n source_a) (dup n source_b)
        (dup n source_c) station_u station_v
        inv_wavelength frac_bandwidth vis =
      fun k =>
        oskar_correlate_gaussian_omp_d (n : ℤ) num_stations jones
          source_I source_Q source_U source_V source_l source_m
          source_a source_b source_c station_u station_v
          inv_wavelength frac_bandwidth vis k +
        oskar_correlate_gaussian_omp_d (n : ℤ) num_stations jones
          source_I source_Q source_U source_V source_l source_m
          source_a source_b source_c station_u station_v
          inv_wavelength frac_bandwidth (fun _ => 0) k := by
  have hv : vis = fun k => vis k + (fun _ : ℤ => (0 : C4)) k := by
    funext k
    rw [add_zero]
  unfold oskar_correlate_gaussian_omp_d
  conv_lhs => rw [hv]
  apply foldl_split
  intro v1 v2 q
  apply foldl_split
  intro w1 w2 p
  funext k
  simp only [Function.update_apply]
  rw [baselineSourceSum_d_dup]
  split_ifs with hk
  · subst hk
    abel
  · rfl

lemma correlate_f_eq_d (num_sources num_stations : ℤ) (jones : ℕ → C4)
    (source_I source_Q source_U source_V source_l source_m
      source_a source_b source_c : ℕ → ℝ)
    (station_u station_v : ℕ → ℝ) (inv_wavelength frac_bandwidth : ℝ)
    (vis : ℤ → C4) :
    oskar_correlate_gaussian_omp_f num_sources num_stations jones
        source_I source_Q source_U source_V source_l source_m
        source_a source_b source_c station_u station_v
        inv_wavelength frac_bandwidth vis =
      oskar_correlate_gaussian_omp_d num_sources num_stations jones
        source_I source_Q source_U source_V source_l source_m
        source_a source_b source_c station_u station_v
        inv_wavelength frac_bandwidth vis := by
  unfold oskar_correlate_gaussian_omp_f oskar_correlate_gaussian_omp_d
  simp only [baselineSourceSum_f_eq_d]

/-- C5: Replacing the source arrays of the Gaussian correlator (either
precision) by their concatenation with an identical copy — doubling
`num_sources` with duplicated per-source data, including the per-station rows
of the flat Jones array — exactly doubles the contribution added to every
visibility entry. -/
theorem correlate_gaussian_doubling (n : ℕ) (num_stations : ℤ) (jones : ℕ → C4)
    (source_I source_Q source_U source_V source_l source_m
      source_a source_b source_c : ℕ → ℝ)
    (station_u station_v : ℕ → ℝ) (inv_wavelength frac_bandwidth : ℝ)
    (vis : ℤ → C4) (k : ℤ) :
    oskar_correlate_gaussian_omp_f (2 * (n : ℤ)) num_stations (dupJones n jones)
          (dup n source_I) (dup n source_Q) (dup n source_U) (dup n source_V)
          (dup n source_l) (dup n source_m) (dup n source_a) (dup n source_b)
          (dup n source_c) station_u station_v
          inv_wavelength frac_bandwidth vis k - vis k =
        2 • (oskar_correlate_gaussian_omp_f (n : ℤ) num_stations jones
          source_I source_Q source_U source_V source_l source_m
          source_a source_b source_c station_u station_v
          inv_wavelength frac_bandwidth vis k - vis k) ∧
    oskar_correlate_gaussian_omp_d (2 * (n : ℤ)) num_stations (dupJones n jones)
          (dup n source_I) (dup n source_Q) (dup n source_U) (dup n source_V)
          (dup n source_l) (dup n source_m) (dup n source_a) (dup n source_b)
          (dup n source_c) station_u station_v
          inv_wavelength frac_bandwidth vis k - vis k =
        2 • (oskar_correlate_gaussian_omp_d (n : ℤ) num_stations jones
          source_I source_Q source_U source_V source_l source_m
          source_a source_b source_c station_u station_v
          inv_wavelength frac_bandwidth vis k - vis k) := by
  have hd : oskar_correlate_gaussian_omp_d (2 * (n : ℤ)) num_stations
        (dupJones n jones)
        (dup n source_I) (dup n source_Q) (dup n source_U) (dup n source_V)
        (dup n source_l) (dup n source_m) (dup n source_a) (dup n source_b)
        (dup n source_c) station_u station_v
        inv_wavelength frac_bandwidth vis k - vis k =
      2 • (oskar_correlate_gaussian_omp_d (n : ℤ) num_stations jones
        source_I source_Q source_U source_V source_l source_m
        source_a source_b source_c station_u station_v
        inv_wavelength frac_bandwidth vis k - vis k) := by
    have h1 := congrFun (correlate_d_dup_eq n num_stations jones
      source_I source_Q source_U source_V source_l source_m
      source_a source_b source_c station_u station_v
      inv_wavelength frac_bandwidth vis) k
    have h2 := congrFun (correlate_d_vis_additive (n : ℤ) num_stations jones
      source_I source_Q source_U source_V source_l source_m
      source_a source_b source_c station_u station_v
      inv_wavelength frac_bandwidth vis) k
    rw [h1, h2, two_smul]
    abel
  refine ⟨?_, hd⟩
  rw [correlate_f_eq_d, correlate_f_eq_d]
  exact hd

/-! ## Average scalar cross-power beam

`oskar_evaluate_average_scalar_cross_power_beam_omp.c`. The degenerate
behaviour of this kernel (C9) depends on IEEE floating-point infinities and
NaN (`2.0/0.0 = +inf`, `0.0 * inf = NaN`), so its scalars are embedded as an
explicit IEEE-style value type: exact finite values (over `ℚ`), two signed
infinities, and NaN. Signed zero is collapsed to the single finite zero; none
of the operations used by this kernel distinguish the two zeros on the inputs
considered here.
-/

/-- An IEEE-style scalar: a finite value, one of the two infinities, or NaN. -/
inductive FVal where
  | fin : ℚ → FVal
  | inf : FVal
  | ninf : FVal
  | nan : FVal
deriving DecidableEq

/-- IEEE-style addition. -/
def FVal.add : FVal → FVal → FVal
  | FVal.fin x, FVal.fin y => FVal.fin (x + y)
  | FVal.fin _, FVal.inf => FVal.inf
  | FVal.fin _, FVal.ninf => FVal.ninf
  | FVal.inf, FVal.fin _ => FVal.inf
  | FVal.ninf, FVal.fin _ => FVal.ninf
  | FVal.inf, FVal.inf => FVal.inf
  | FVal.ninf, FVal.ninf => FVal.ninf
  | FVal.inf, FVal.ninf => FVal.nan
  | FVal.ninf, FVal.inf => FVal.nan
  | FVal.nan, _ => FVal.nan
  | _, FVal.nan => FVal.nan

/-- IEEE-style subtraction. -/
def FVal.sub : FVal → FVal → FVal
  | FVal.fin x, FVal.fin y => FVal.fin (x - y)
  | FVal.fin _, FVal.inf => FVal.ninf
  | FVal.fin _, FVal.ninf => FVal.inf
  | FVal.inf, FVal.fin _ => FVal.inf
  | FVal.ninf, FVal.fin _ => FVal.ninf
  | FVal.inf, FVal.inf => FVal.nan
  | FVal.ninf, FVal.ninf => FVal.nan
  | FVal.inf, FVal.ninf => FVal.inf
  | FVal.ninf, FVal.inf => FVal.ninf
  | FVal.nan, _ => FVal.nan
  | _, FVal.nan => FVal.nan

/-- IEEE-style multiplication; in particular `0 * (+-inf) = NaN`. -/
def FVal.mul : FVal → FVal → FVal
  | FVal.fin x, FVal.fin y => FVal.fin (x * y)
  | FVal.fin x, FVal.inf =>
      if 0 < x then FVal.inf else if x < 0 then FVal.ninf else FVal.nan
  | FVal.fin x, FVal.ninf =>
      if 0 < x then FVal.ninf else if x < 0 then FVal.inf else FVal.nan
  | FVal.inf, FVal.fin y =>
      if 0 < y then FVal.inf else if y < 0 then FVal.ninf else FVal.nan
  | FVal.ninf, FVal.fin y =>
      if 0 < y then FVal.ninf else if y < 0 then FVal.inf else FVal.nan
  | FVal.inf, FVal.inf => FVal.inf
  | FVal.ninf, FVal.ninf => FVal.inf
  | FVal.inf, FVal.ninf => FVal.ninf
  | FVal.ninf, FVal.inf => FVal.ninf
  | FVal.nan, _ => FVal.nan
  | _, FVal.nan => FVal.nan

/-- IEEE-style division; in particular `x / 0 = +inf` for finite `x > 0`
(the divisor `0` stands for IEEE `+0.0`, which is what a zero C `int`
converts to). -/
def FVal.div : FVal → FVal → FVal
  | FVal.fin x, FVal.fin y =>
      if y = 0 then
        (if 0 < x then FVal.inf else if x < 0 then FVal.ninf else FVal.nan)
      else FVal.fin (x / y)
  | FVal.fin _, FVal.inf => FVal.fin 0
  | FVal.fin _, FVal.ninf => FVal.fin 0
  | FVal.inf, FVal.fin y => if y < 0 then FVal.ninf else FVal.inf
  | FVal.ninf, FVal.fin y => if y < 0 then FVal.inf else FVal.ninf
  | FVal.inf, FVal.inf => FVal.nan
  | FVal.ninf, FVal.ninf => FVal.nan
  | FVal.inf, FVal.ninf => FVal.nan
  | FVal.ninf, FVal.inf => FVal.nan
  | FVal.nan, _ => FVal.nan
  | _, FVal.nan => FVal.nan

/-- Modelled from the spec: `OSKAR_MULTIPLY_ADD_COMPLEX_CONJUGATE(val, p, q)`
(macro of `oskar_correlate_functions_inline.h`, not among the sampled
sources): the complex multiply-accumulate `val += p * conj(q)`, i.e.
`val.x += p.x*q.x + p.y*q.y; val.y += p.y*q.x - p.x*q.y`. -/
def multiplyAddConjugate (val p q : FVal × FVal) : FVal × FVal :=
  (FVal.add val.1 (FVal.add (FVal.mul p.1 q.1) (FVal.mul p.2 q.2)),
   FVal.add val.2 (FVal.sub (FVal.mul p.2 q.1) (FVal.mul p.1 q.2)))

/-- `oskar_evaluate_average_scalar_cross_power_beam_omp_f` (lines 37-83) and
`oskar_evaluate_average_scalar_cross_power_beam_omp_d` (lines 86-132): the two
bodies are textually identical up to numeric width, so a single exact-value
embedding covers both. `norm = 2 / (num_stations * (num_stations - 1))` with
the denominator computed in C `int` arithmetic and then converted; for every
source `i` the nested station loops accumulate `val1` and the beam entry is
overwritten with `val1 * norm`; entries at `i ≥ num_sources` are not
written. -/
def oskar_evaluate_average_scalar_cross_power_beam_omp
    (num_sources num_stations : ℤ) (jones : ℕ → FVal × FVal)
    (beam : ℕ → FVal × FVal) : ℕ → FVal × FVal :=
  let norm := FVal.div (FVal.fin 2)
    (FVal.fin ((num_stations * (num_stations - 1) : ℤ) : ℚ))
  fun i =>
    if i < num_sources.toNat then
      let val1 := (List.range num_stations.toNat).foldl
        (fun val1 SP =>
          let p := jones (SP * num_sources.toNat + i)
          let val2 :=
            (List.range' (SP + 1) (num_stations.toNat - (SP + 1))).foldl
              (fun val2 SQ =>
                multiplyAddConjugate val2 p (jones (SQ * num_sources.toNat + i)))
              (FVal.fin 0, FVal.fin 0)
          (FVal.add val1.1 val2.1, FVal.add val1.2 val2.2))
        (FVal.fin 0, FVal.fin 0)
      (FVal.mul val1.1 norm, FVal.mul val1.2 norm)
    else beam i

/-- C6: For `num_stations = 2`, the average scalar cross-power beam at each
source `i` is the single-baseline correlation of the two stations' Jones
values, `jones[0*num_sources+i] * conj(jones[1*num_sources+i])`, scaled by
the normalization `2/(2*1) = 1`. -/
theorem avg_scalar_cross_power_two_stations (num_sources : ℤ)
    (jones beam : ℕ → FVal × FVal) (i : ℕ) (px py qx qy : ℚ)
    (hi : i < num_sources.toNat)
    (hp : jones i = (FVal.fin px, FVal.fin py))
    (hq : jones (num_sources.toNat + i) = (FVal.fin qx, FVal.fin qy)) :
    oskar_evaluate_average_scalar_cross_power_beam_omp num_sources 2
        jones beam i =
      (FVal.fin (px * qx + py * qy), FVal.fin (py * qx - px * qy)) := by
  unfold oskar_evaluate_average_scalar_cross_power_beam_omp
  simp only []
  rw [if_pos hi]
  have hlist : List.range (2 : ℤ).toNat = [0, 1] := rfl
  rw [hlist]
  simp only [List.foldl_cons, List.foldl_nil]
  norm_num
  rw [hp]
  have hlist2 : List.range' 1 ((2 : ℤ).toNat - 1) = [1] := rfl
  rw [hlist2]
  simp only [List.foldl_cons, List.foldl_nil, one_mul]
  rw [hq]
  simp only [multiplyAddConjugate, FVal.add, FVal.mul, FVal.sub, FVal.div]
  norm_num

/-- Witness for C6: two stations, one source, concrete Jones values
`p = 2+3i`, `q = 5+7i`; the beam entry equals `p * conj(q)`. -/
theorem avg_scalar_cross_power_two_stations_witness :
    oskar_evaluate_average_scalar_cross_power_beam_omp 1 2
        (fun k => if k = 0 then (FVal.fin 2, FVal.fin 3) else (FVal.fin 5, FVal.fin 7))
        (fun _ => (FVal.fin 0, FVal.fin 0)) 0 =
      (FVal.fin (2 * 5 + 3 * 7), FVal.fin (3 * 5 - 2 * 7)) :=
  avg_scalar_cross_power_two_stations 1
    (fun k => if k = 0 then (FVal.fin 2, FVal.fin 3) else (FVal.fin 5, FVal.fin 7))
    (fun _ => (FVal.fin 0, FVal.fin 0)) 0 2 3 5 7
    (by decide) (by decide) (by decide)

/-- Counterexample for C9 as stated: the claim quantifies over all
`num_stations ≤ 1`, but C `int` admits negative values; at
`num_stations = -1` the integer product `num_stations*(num_stations-1) = 2`
is positive, the normalization is the finite value `1`, and the beam entry is
written as `0`, not NaN. -/
theorem avg_scalar_cross_power_negative_stations_counterexample :
    ¬ (oskar_evaluate_average_scalar_cross_power_beam_omp 1 (-1)
        (fun _ => (FVal.fin 0, FVal.fin 0)) (fun _ => (FVal.fin 0, FVal.fin 0))
        0 =
      (FVal.nan, FVal.nan)) := by
  decide

/-- C9 (amended): For the average scalar cross-power beam with
`num_stations = 0` or `num_stations = 1` and any source index
`i < num_sources`, the normalization `2/(num_stations*(num_stations-1))`
divides by zero (producing `+inf`), and the beam entry at `i` is written as
NaN (`0` times infinity) rather than being left unchanged or set to zero:
the degenerate station count is not a no-op for this kernel. -/
theorem avg_scalar_cross_power_degenerate_nan (num_sources num_stations : ℤ)
    (jones beam : ℕ → FVal × FVal) (i : ℕ)
    (hns : num_stations = 0 ∨ num_stations = 1)
    (hi : i < num_sources.toNat) :
    oskar_evaluate_average_scalar_cross_power_beam_omp num_sources num_stations
        jones beam i = (FVal.nan, FVal.nan) := by
  rcases hns with h | h <;> subst h
  · unfold oskar_evaluate_average_scalar_cross_power_beam_omp
    simp only []
    rw [if_pos hi]
    rw [show List.range (Int.toNat 0) = [] from rfl]
    simp only [List.foldl_nil]
    norm_num [FVal.mul, FVal.div]
  · unfold oskar_evaluate_average_scalar_cross_power_beam_omp
    simp only []
    rw [if_pos hi]
    rw [show List.range (Int.toNat 1) = [0] from rfl]
    simp only [List.foldl_cons, List.foldl_nil]
    rw [show List.range' (0 + 1) (Int.toNat 1 - (0 + 1)) = [] from rfl]
    simp only [List.foldl_nil]
    norm_num [FVal.add, FVal.mul, FVal.div]

/-- Witness for C9 (amended): one station, one source; the beam entry is
written as NaN. -/
theorem avg_scalar_cross_power_degenerate_nan_witness :
    oskar_evaluate_average_scalar_cross_power_beam_omp 1 1
        (fun _ => (FVal.fin 3, FVal.fin 4)) (fun _ => (FVal.fin 7, FVal.fin 8))
        0 = (FVal.nan, FVal.nan) :=
  avg_scalar_cross_power_degenerate_nan 1 1
    (fun _ => (FVal.fin 3, FVal.fin 4)) (fun _ => (FVal.fin 7, FVal.fin 8)) 0
    (Or.inr rfl) (by decide)

/-! ## Station element-position override

`src/station/src/oskar_station_override_element_xy_position_errors.c`.
The station container, its accessors (`oskar_station_location`,
`oskar_station_has_child`, `oskar_station_child`, `oskar_station_type`,
`oskar_mem_double` / `oskar_mem_float`) and the random generator
`oskar_random_gaussian` are not among the sampled sources; they are modelled
from the specification: a station is a tree node with a memory location, an
element numeric type, element arrays and a list of child stations, and the
random generator is an abstract stream of pairs consumed in call order.
The enum values below stand for the C constants; only their distinctness and
the fact that the error code is nonzero matter. -/
def OSKAR_LOCATION_CPU : ℤ := 0

/-- Modelled from the spec: a non-CPU memory location value. -/
def OSKAR_LOCATION_GPU : ℤ := 1

/-- Modelled from the spec: the (nonzero) invalid-location status code. -/
def OSKAR_ERR_BAD_LOCATION : ℤ := -2

/-- Modelled from the spec: the double-precision element type tag. -/
def OSKAR_DOUBLE : ℤ := 2

/-- Modelled from the spec: the single-precision element type tag. -/
def OSKAR_SINGLE : ℤ := 1

/-- Modelled from the spec: a station node of the recursive hierarchy.
Fields: memory location, element numeric type, `num_elements`, the
`x_signal`, `y_signal`, `x_weights`, `y_weights` element arrays, and the
child stations (a leaf has no children; a non-leaf station has
`num_elements` children, represented by the list itself). -/
inductive Station where
  | mk : ℤ → ℤ → ℕ → (ℕ → ℝ) → (ℕ → ℝ) → (ℕ → ℝ) → (ℕ → ℝ) →
      List Station → Station

/-- Memory location of a station (`oskar_station_location`). -/
def Station.location : Station → ℤ
  | Station.mk loc _ _ _ _ _ _ _ => loc

/-- Element numeric type of a station (`oskar_station_type`). -/
def Station.stype : Station → ℤ
  | Station.mk _ ty _ _ _ _ _ _ => ty

/-- Child stations (`oskar_station_has_child` / `oskar_station_child`). -/
def Station.children : Station → List Station
  | Station.mk _ _ _ _ _ _ _ children => children

mutual

/-- `oskar_station_override_element_xy_position_errors` (lines 37-110):
check `*status` and the memory location, then either recurse over the child
stations in order (each child call re-checks the status) or, at a leaf,
overwrite `x_signal`/`y_signal` from the weights plus scaled Gaussian
deviates when the element type is `OSKAR_DOUBLE` or `OSKAR_SINGLE` (any
other type does nothing). `rng` is the abstract random stream and the `ℕ`
component threads the stream position; the `ℤ` component is `*status`. -/
def overrideStation (rng : ℕ → ℝ × ℝ) (position_error_xy_m : ℝ) :
    Station → ℕ → ℤ → Station × ℕ × ℤ
  | Station.mk loc ty n xs ys xw yw children, ctr, status =>
    if status ≠ 0 then (Station.mk loc ty n xs ys xw yw children, ctr, status)
    else if loc ≠ OSKAR_LOCATION_CPU then
      (Station.mk loc ty n xs ys xw yw children, ctr, OSKAR_ERR_BAD_LOCATION)
    else
      match children with
      | [] =>
          if ty = OSKAR_DOUBLE then
            (Station.mk loc ty n
              (fun i => if i < n then
                xw i + (rng (ctr + i)).1 * position_error_xy_m else xs i)
              (fun i => if i < n then
                yw i + (rng (ctr + i)).2 * position_error_xy_m else ys i)
              xw yw [], ctr + n, status)
          else if ty = OSKAR_SINGLE then
            (Station.mk loc ty n
              (fun i => if i < n then
                xw i + (rng (ctr + i)).1 * position_error_xy_m else xs i)
              (fun i => if i < n then
                yw i + (rng (ctr + i)).2 * position_error_xy_m else ys i)
              xw yw [], ctr + n, status)
          else (Station.mk loc ty n xs ys xw yw [], ctr, status)
      | c :: cs =>
          let r := overrideChildren rng position_error_xy_m (c :: cs) ctr status
          (Station.mk loc ty n xs ys xw yw r.1, r.2.1, r.2.2)

/-- The child loop of `oskar_station_override_element_xy_position_errors`
(lines 60-68): apply the override to each child in order, threading the
random-stream position and the status. -/
def overrideChildren (rng : ℕ → ℝ × ℝ) (position_error_xy_m : ℝ) :
    List Station → ℕ → ℤ → List Station × ℕ × ℤ
  | [], ctr, status => ([], ctr, status)
  | c :: cs, ctr, status =>
      let r1 := overrideStation rng position_error_xy_m c ctr status
      let r2 := overrideChildren rng position_error_xy_m cs r1.2.1 r1.2.2
      (r1.1 :: r2.1, r2.2.1, r2.2.2)

end

lemma overrideStation_status_ne (rng : ℕ → ℝ × ℝ) (err : ℝ) (s : Station)
    (ctr : ℕ) (status : ℤ) (h : status ≠ 0) :
    overrideStation rng err s ctr status = (s, ctr, status) := by
  cases s with
  | mk loc ty n xs ys xw yw children =>
      simp only [overrideStation.eq_def]
      rw [if_pos h]

lemma overrideChildren_status_ne (rng : ℕ → ℝ × ℝ) (err : ℝ) :
    ∀ (l : List Station) (ctr : ℕ) (status : ℤ), status ≠ 0 →
      overrideChildren rng err l ctr status = (l, ctr, status) := by
  intro l
  induction l with
  | nil =>
      intro ctr status h
      rw [overrideChildren]
  | cons c cs ih =>
      intro ctr status h
      rw [overrideChildren]
      simp only [overrideStation_status_ne rng err c ctr status h]
      simp only [ih ctr status h]

/-- C8: `oskar_station_override_element_xy_position_errors` reports failures
only through its status code (the embedding is a total function returning the
updated station, random-stream position and status; there is no exceptional
exit) and is atomic on error: a nonzero status on entry returns the station,
stream position and status unchanged; a success status with a non-CPU memory
location returns `OSKAR_ERR_BAD_LOCATION` with the station unmodified; in the
child traversal a nonzero status makes the remaining children (and stream
position) untouched, so after the first child failure every later child is
skipped and the status handed back to the caller is that first failure's. -/
theorem override_xy_position_errors_status (rng : ℕ → ℝ × ℝ) (err : ℝ)
    (s : Station) (ctr : ℕ) (status : ℤ) :
    (status ≠ 0 → overrideStation rng err s ctr status = (s, ctr, status)) ∧
    (status = 0 → s.location ≠ OSKAR_LOCATION_CPU →
      overrideStation rng err s ctr status = (s, ctr, OSKAR_ERR_BAD_LOCATION)) ∧
    (∀ (l : List Station) (c : ℕ) (st : ℤ), st ≠ 0 →
      overrideChildren rng err l c st = (l, c, st)) ∧
    (∀ (c : Station) (cs : List Station) (c0 : ℕ),
      (overrideStation rng err c c0 0).2.2 ≠ 0 →
      overrideChildren rng err (c :: cs) c0 0 =
        ((overrideStation rng err c c0 0).1 :: cs,
         (overrideStation rng err c c0 0).2.1,
         (overrideStation rng err c c0 0).2.2)) := by
  refine ⟨?_, ?_, ?_, ?_⟩
  · intro h
    exact overrideStation_status_ne rng err s ctr status h
  · intro h0 hloc
    cases s with
    | mk loc ty n xs ys xw yw children =>
        subst h0
        simp only [overrideStation.eq_def]
        rw [if_neg (by simp)]
        rw [if_pos (by exact hloc)]
  · intro l c st h
    exact overrideChildren_status_ne rng err l c st h
  · intro c cs c0 hfail
    rw [overrideChildren]
    simp only [overrideChildren_status_ne rng err cs
      (overrideStation rng err c c0 0).2.1
      (overrideStation rng err c c0 0).2.2 hfail]

/-- Witness for C8: with a nonzero entry status the function returns its
arguments unchanged; a child list is likewise untouched under a nonzero
status. -/
theorem override_xy_position_errors_status_witness :
    overrideStation (fun _ => (0, 0)) 1
        (Station.mk 0 2 0 (fun _ => 0) (fun _ => 0) (fun _ => 0) (fun _ => 0) [])
        0 1 =
      (Station.mk 0 2 0 (fun _ => 0) (fun _ => 0) (fun _ => 0) (fun _ => 0) [],
        0, 1) ∧
    overrideChildren (fun _ => (0, 0)) 1 [] 0 5 = ([], 0, 5) :=
  ⟨(override_xy_position_errors_status (fun _ => (0, 0)) 1
      (Station.mk 0 2 0 (fun _ => 0) (fun _ => 0) (fun _ => 0) (fun _ => 0) [])
      0 1).1 (by decide),
   (override_xy_position_errors_status (fun _ => (0, 0)) 1
      (Station.mk 0 2 0 (fun _ => 0) (fun _ => 0) (fun _ => 0) (fun _ => 0) [])
      0 1).2.2.1 [] 0 5 (by decide)⟩

/-- C10: At a leaf station (no children, CPU location, success status) whose
element type is neither `OSKAR_DOUBLE` nor `OSKAR_SINGLE`, the override
modifies no element data and leaves the status at success: the unrecognized
type is a silent no-op, with no invalid-argument error reported. -/
theorem override_unknown_type_noop (rng : ℕ → ℝ × ℝ) (err : ℝ) (ty : ℤ)
    (n : ℕ) (xs ys xw yw : ℕ → ℝ) (ctr : ℕ)
    (hty1 : ty ≠ OSKAR_DOUBLE) (hty2 : ty ≠ OSKAR_SINGLE) :
    overrideStation rng err
        (Station.mk OSKAR_LOCATION_CPU ty n xs ys xw yw []) ctr 0 =
      (Station.mk OSKAR_LOCATION_CPU ty n xs ys xw yw [], ctr, 0) := by
  simp only [overrideStation.eq_def]
  rw [if_neg (by simp)]
  rw [if_neg (by simp)]
  simp only [if_neg hty1, if_neg hty2]

/-- Witness for C10: a leaf station of element type `99` (neither double nor
single) is returned unchanged with status `0`. -/
theorem override_unknown_type_noop_witness :
    overrideStation (fun _ => (0, 0)) 1
        (Station.mk OSKAR_LOCATION_CPU 99 3
          (fun _ => 0) (fun _ => 0) (fun _ => 0) (fun _ => 0) []) 0 0 =
      (Station.mk OSKAR_LOCATION_CPU 99 3
        (fun _ => 0) (fun _ => 0) (fun _ => 0) (fun _ => 0) [], 0, 0) :=
  override_unknown_type_noop (fun _ => (0, 0)) 1 99 3
    (fun _ => 0) (fun _ => 0) (fun _ => 0) (fun _ => 0) 0
    (by decide) (by decide)
